import Mathlib

/-!
Shallow embedding of the f2f repository's market-state cache and spread
pipeline (src/f2fspread_main2.py, src/f2fspread.py, src/futurestockslist.py).

Python floats are modelled as exact rationals (`ℚ`); a value that may be
`None` is an `Option`.  Python's `round(x, n)` rounds half to even; `rne`
models that rounding to an integer and `roundTo n` the n-decimal form.
-/

namespace F2F

/-- Python's `round` to an integer: nearest integer, ties to even. -/
def rne (x : ℚ) : ℤ :=
  if x - (⌊x⌋ : ℚ) < 1/2 then ⌊x⌋
  else if 1/2 < x - (⌊x⌋ : ℚ) then ⌊x⌋ + 1
  else if ⌊x⌋ % 2 = 0 then ⌊x⌋ else ⌊x⌋ + 1

/-- Python's `round(x, n)`: round to `n` decimal places. -/
def roundTo (n : ℕ) (x : ℚ) : ℚ := (rne (x * 10 ^ n) : ℚ) / 10 ^ n

/-- `diff` from f2fspread_main2.py line 40: `round(a - b, 4)` when both
operands are present, else `None`. -/
def diff (a b : Option ℚ) : Option ℚ :=
  match a, b with
  | some a, some b => some (roundTo 4 (a - b))
  | _, _ => none

/-- A market-state entry / quote snapshot: `{"bidP": ..., "askP": ..., "ltp": ...}`.
Each field is `None` until observed. -/
structure Quote where
  bidP : Option ℚ
  askP : Option ℚ
  ltp : Option ℚ
deriving DecidableEq, Repr

/-- The all-`None` quote, as produced by `.get` on an absent key or `{}`. -/
def emptyQuote : Quote := ⟨none, none, none⟩

/-- `near_ltp = safe_float(near.get("ltp")) or 1` (main2 line 154): the near
last price, with `None` and `0` both falling back to `1`.  f2fspread.py lines
381-383 (`if not near_ltp or near_ltp == 0: near_ltp = 1`) compute the same
value. -/
def near_ltp_guard (near : Quote) : ℚ :=
  match near.ltp with
  | none => 1
  | some x => if x = 0 then 1 else x

/-- The twelve keys returned by `compute_spreads`: six absolute spreads and
their `_pct` forms. -/
structure Spreads where
  Spread_NearBuy_NextSell : Option ℚ
  Spread_NearSell_NextBuy : Option ℚ
  Spread_NextBuy_FarSell : Option ℚ
  Spread_NextSell_FarBuy : Option ℚ
  Spread_NearBuy_FarSell : Option ℚ
  Spread_NearSell_FarBuy : Option ℚ
  Spread_NearBuy_NextSell_pct : Option ℚ
  Spread_NearSell_NextBuy_pct : Option ℚ
  Spread_NextBuy_FarSell_pct : Option ℚ
  Spread_NextSell_FarBuy_pct : Option ℚ
  Spread_NearBuy_FarSell_pct : Option ℚ
  Spread_NearSell_FarBuy_pct : Option ℚ
deriving DecidableEq, Repr

/-- `pct(d)` from main2 lines 155-156: `round((d / near_ltp) * 100, 2)` when
`d` is present, else `None`. -/
def pct (near_ltp : ℚ) (d : Option ℚ) : Option ℚ :=
  d.map (fun v => roundTo 2 (v / near_ltp * 100))

/-- `compute_spreads` from f2fspread_main2.py lines 153-167. -/
def compute_spreads (near nxt far : Quote) : Spreads :=
  let near_ltp := near_ltp_guard near
  { Spread_NearBuy_NextSell := diff nxt.bidP near.askP
    Spread_NearSell_NextBuy := diff near.bidP nxt.askP
    Spread_NextBuy_FarSell := diff far.bidP nxt.askP
    Spread_NextSell_FarBuy := diff nxt.bidP far.askP
    Spread_NearBuy_FarSell := diff far.bidP near.askP
    Spread_NearSell_FarBuy := diff near.bidP far.askP
    Spread_NearBuy_NextSell_pct := pct near_ltp (diff nxt.bidP near.askP)
    Spread_NearSell_NextBuy_pct := pct near_ltp (diff near.bidP nxt.askP)
    Spread_NextBuy_FarSell_pct := pct near_ltp (diff far.bidP nxt.askP)
    Spread_NextSell_FarBuy_pct := pct near_ltp (diff nxt.bidP far.askP)
    Spread_NearBuy_FarSell_pct := pct near_ltp (diff far.bidP near.askP)
    Spread_NearSell_FarBuy_pct := pct near_ltp (diff near.bidP far.askP) }

/-- `pct(a, b)` from f2fspread.py lines 385-387: recomputes `diff(a, b)` and
normalizes it by the near last price. -/
def pct_v1 (near_ltp : ℚ) (a b : Option ℚ) : Option ℚ :=
  (diff a b).map (fun d => roundTo 2 (d / near_ltp * 100))

/-- `compute_spreads` from f2fspread.py lines 380-406.  The `_pct` entries come
from the dict comprehension at lines 399-403, whose operand choice tests
substring membership in the key (`"Near" in k`, `"Next" in k`, `"Buy" in k`);
here each key's test is evaluated: e.g. for `"Spread_NearSell_NextBuy"` the
tests `"Near" in k`, `"Next" in k` and `"Buy" in k` are all true (the key
contains `"NextBuy"`), so its pct operands are `nxt.bidP` and `near.askP`. -/
def compute_spreads_v1 (near nxt far : Quote) : Spreads :=
  let near_ltp := near_ltp_guard near
  { Spread_NearBuy_NextSell := diff nxt.bidP near.askP
    Spread_NearSell_NextBuy := diff near.bidP nxt.askP
    Spread_NextBuy_FarSell := diff far.bidP nxt.askP
    Spread_NextSell_FarBuy := diff nxt.bidP far.askP
    Spread_NearBuy_FarSell := diff far.bidP near.askP
    Spread_NearSell_FarBuy := diff near.bidP far.askP
    Spread_NearBuy_NextSell_pct := pct_v1 near_ltp nxt.bidP near.askP
    Spread_NearSell_NextBuy_pct := pct_v1 near_ltp nxt.bidP near.askP
    Spread_NextBuy_FarSell_pct := pct_v1 near_ltp far.bidP nxt.askP
    Spread_NextSell_FarBuy_pct := pct_v1 near_ltp far.bidP nxt.askP
    Spread_NearBuy_FarSell_pct := pct_v1 near_ltp far.bidP near.askP
    Spread_NearSell_FarBuy_pct := pct_v1 near_ltp far.bidP near.askP }

/-! ### Market-state cache

`market_state` is a Python dict from instrument key (a string) to the latest
quote.  It is modelled as an association list where an assignment prepends and
a lookup takes the most recent binding.  The `ts` field that f2fspread.py
additionally stores (and never reads) is omitted. -/

abbrev Cache := List (String × Quote)

/-- Python dict assignment `market_state[ik] = entry`. -/
def cacheSet (c : Cache) (ik : String) (q : Quote) : Cache := (ik, q) :: c

/-- Python dict lookup `market_state.get(ik)`: latest binding wins. -/
def cacheLookup (c : Cache) (ik : String) : Option Quote :=
  match c with
  | [] => none
  | (k, v) :: rest => if k = ik then some v else cacheLookup rest ik

/-- The per-instrument write `market_state[ik] = {"bidP": bid, "askP": ask,
"ltp": ltp}` performed by f2fspread_main2.py's REST poller (line 96) and its
websocket callback (line 122): unconditional. -/
def writeQuote (c : Cache) (ik : String) (bid ask ltp : Option ℚ) : Cache :=
  cacheSet c ik ⟨bid, ask, ltp⟩

/-- The per-instrument write of f2fspread.py's `initial_rest_poll`
(lines 181-187): the entry is stored only `if bid is not None or ask is not
None or ltp is not None`. -/
def rest_poll_write_v1 (c : Cache) (ik : String) (bid ask ltp : Option ℚ) : Cache :=
  if bid ≠ none ∨ ask ≠ none ∨ ltp ≠ none then cacheSet c ik ⟨bid, ask, ltp⟩ else c

/-- One entry of the `bidAskQuote` depth list of a websocket feed. -/
structure BidAskQuote where
  bidP : Option ℚ
  askP : Option ℚ
deriving DecidableEq, Repr

/-- The `marketFF` part of a feed payload, with the `.get` chains
`ff.get("ltpc", {}).get("ltp")` and `ff.get("marketLevel", {}).get("bidAskQuote", [])`
collapsed to their results. -/
structure MarketFF where
  ltp : Option ℚ
  bidAskQuote : List BidAskQuote
deriving DecidableEq, Repr

/-- A feed payload: `payload.get("fullFeed", {}).get("marketFF", {})` is `none`
when either level is absent. -/
structure FeedPayload where
  marketFF : Option MarketFF
deriving DecidableEq, Repr

/-- A websocket message: a `type` tag and a feeds dict (association list). -/
structure FeedMessage where
  type : String
  feeds : List (String × FeedPayload)
deriving DecidableEq, Repr

/-- Field extraction of `on_message` (f2fspread_main2.py lines 116-121):
`ltp` from the `ltpc` block, best bid/ask from the head of the depth list
(`depth_list[0]` guarded by `if depth_list else None`). -/
def parseFeedEntry (p : FeedPayload) : Quote :=
  let ff := p.marketFF.getD ⟨none, []⟩
  let bid := match ff.bidAskQuote with | [] => none | q :: _ => q.bidP
  let ask := match ff.bidAskQuote with | [] => none | q :: _ => q.askP
  ⟨bid, ask, ff.ltp⟩

/-- `on_message` from f2fspread_main2.py lines 106-122: ignore non-live-feed
messages and empty feed dicts, otherwise store each feed's parsed entry
under `str(ik_raw)`. -/
def on_message (msg : FeedMessage) (c : Cache) : Cache :=
  if msg.type ≠ "live_feed" then c
  else if msg.feeds = [] then c
  else msg.feeds.foldl (fun acc f => cacheSet acc f.1 (parseFeedEntry f.2)) c

/-- `get_state` from f2fspread_main2.py lines 169-172:
`market_state.get(ik, {"ltp": None, "bidP": None, "askP": None})`. -/
def get_state (c : Cache) (ik : String) : Quote :=
  (cacheLookup c ik).getD emptyQuote

/-- The record returned by f2fspread.py's `get_state` (lines 370-378): the
caller-supplied trading symbol plus `s.get("bidP")`, `s.get("askP")`,
`s.get("ltp")` of `market_state.get(ik, {})`. -/
structure StateV1 where
  symbol : String
  bidP : Option ℚ
  askP : Option ℚ
  ltp : Option ℚ
deriving DecidableEq, Repr

/-- `get_state(ik, tsym)` from f2fspread.py lines 370-378. -/
def get_state_v1 (c : Cache) (ik tsym : String) : StateV1 :=
  let s := cacheLookup c ik
  ⟨tsym, s.bind Quote.bidP, s.bind Quote.askP, s.bind Quote.ltp⟩

/-! ### Instrument catalog -/

/-- One record of instruments.json; every `.get` field may be absent. -/
structure Instrument where
  segment : Option String
  instrument_type : Option String
  underlying_symbol : Option String
  instrument_key : Option String
  expiry : Option ℤ
  trading_symbol : Option String
deriving DecidableEq, Repr

/-- Python `str(...)` applied to a possibly-`None` string. -/
def pyStr : Option String → String
  | none => "None"
  | some s => s

/-- The record built per matching future by `get_instrument_keys_for_symbol`
(f2fspread_main2.py lines 67-71): `str()`-normalized key, expiry defaulting
to 0, trading symbol. -/
structure Fut where
  instrument_key : String
  expiry : ℤ
  trading_symbol : Option String
deriving DecidableEq, Repr

/-- The filter of f2fspread_main2.py lines 62-66. -/
def matchesFut (symbol : String) (i : Instrument) : Bool :=
  decide (i.segment = some "NSE_FO" ∧ i.instrument_type = some "FUT"
    ∧ i.underlying_symbol = some symbol)

def futOf (i : Instrument) : Fut :=
  ⟨pyStr i.instrument_key, i.expiry.getD 0, i.trading_symbol⟩

/-- Expiry comparison used for `futures.sort(key=lambda x: x["expiry"])`. -/
def expiryLe (a b : Fut) : Bool := decide (a.expiry ≤ b.expiry)

/-- `get_instrument_keys_for_symbol` from f2fspread_main2.py lines 59-73:
filter to NSE_FO futures of the underlying, sort ascending by expiry, take
the first three. -/
def get_instrument_keys_for_symbol (symbol : String) (instruments : List Instrument) :
    List Fut :=
  ((((instruments.filter (matchesFut symbol)).map futOf).mergeSort expiryLe).take 3)

/-! ### Order-stable deduplication

`list(dict.fromkeys(keys))` (f2fspread.py line 485) and pandas
`.dropna().unique().tolist()` (line 73 / main2 line 54) both keep the first
occurrence of each value, in order of first appearance. -/

/-- Scan keeping each value's first occurrence not already `seen`. -/
def dedupFirstAux {α : Type} [DecidableEq α] (seen : List α) : List α → List α
  | [] => []
  | x :: xs => if x ∈ seen then dedupFirstAux seen xs else x :: dedupFirstAux (x :: seen) xs

/-- First-occurrence, order-preserving deduplication. -/
def dedupFirst {α : Type} [DecidableEq α] (l : List α) : List α := dedupFirstAux [] l

/-- Index of the first occurrence of `x`, the list's length if absent. -/
def firstIdx {α : Type} [DecidableEq α] (x : α) : List α → ℕ
  | [] => 0
  | y :: ys => if y = x then 0 else firstIdx x ys + 1

/-- `load_underlyings` (f2fspread_main2.py lines 51-57): the CSV's
`underlying_symbol` column with nulls dropped, deduplicated keeping first
appearances (`df[...].dropna().unique().tolist()`). -/
def load_underlyings (column : List (Option String)) : List String :=
  dedupFirst (column.filterMap id)

/-- `subscribe_keys` construction (f2fspread.py lines 481-485): all instrument
keys of every underlying's near/next/far futures, then
`list(dict.fromkeys(...))`. -/
def subscribe_keys (underlyings : List String) (instruments : List Instrument) :
    List String :=
  dedupFirst (underlyings.flatMap
    (fun s => (get_instrument_keys_for_symbol s instruments).map Fut.instrument_key))

/-! ### futurestockslist.py -/

/-- Outcome of reading and JSON-decoding instruments.json. -/
inductive InstrumentsFile
  | missing
  | malformed
  | parsed (instruments : List Instrument)
deriving DecidableEq, Repr

/-- `fetch_futures_stocks` from futurestockslist.py lines 48-68: on a missing
or undecodable file return `[]`; otherwise keep the instruments whose segment,
type and expiry equal the given ones.  The `skip_symbols` parameter is
accepted but not used in the body. -/
def fetch_futures_stocks (file : InstrumentsFile) (segment instrument_type : String)
    (expiry : ℤ) (skip_symbols : List String) : List Instrument :=
  match file with
  | .missing => []
  | .malformed => []
  | .parsed instruments =>
      instruments.filter (fun i =>
        decide (i.segment = some segment ∧ i.instrument_type = some instrument_type
          ∧ i.expiry = some expiry))

/-! ### build_df row construction (f2fspread_main2.py lines 174-207) -/

/-- One row of margin_charges_cache.csv as read by `build_df`. -/
structure MarginRow where
  Symbol : String
  Margin : ℚ
  Charges : ℚ
  Cost_of_Carry : ℚ
  Lot_Size : ℤ
deriving DecidableEq, Repr

/-- Python's numeric `x or d`: `d` when `x` is `None` or zero. -/
def pyOrQ (x : Option ℚ) (d : ℚ) : ℚ :=
  match x with
  | none => d
  | some v => if v = 0 then d else v

/-- Python's integer `x or d`: `d` when `x` is `None` or zero. -/
def pyOrZ (x : Option ℤ) (d : ℤ) : ℤ :=
  match x with
  | none => d
  | some v => if v = 0 then d else v

/-- One rendered dashboard row (f2fspread_main2.py lines 196-206). -/
structure Row where
  Symbol : String
  Lot_Size : Option ℤ
  Margin : ℚ
  Charges : ℚ
  Cost_of_Carry : ℚ
  Near_ltp : Option ℚ
  Next_ltp : Option ℚ
  Far_ltp : Option ℚ
  spreads : Spreads
deriving DecidableEq, Repr

/-- `margin_df.loc[margin_df["Symbol"] == sym]` reduced to its first row. -/
def findMarginRow (margin_df : List MarginRow) (sym : String) : Option MarginRow :=
  margin_df.find? (fun r => decide (r.Symbol = sym))

/-- The body of `build_df`'s per-symbol loop (f2fspread_main2.py lines
177-206): near/next/far futures (padded with `None`), their cached states
(`{}`, i.e. all-null, for a missing contract), spreads, and the margin fields
with `or 0` / `or 1` defaults. -/
def build_row (sym : String) (instruments : List Instrument) (c : Cache)
    (margin_df : List MarginRow) : Row :=
  let futs := (get_instrument_keys_for_symbol sym instruments).take 3
  let near := futs.get? 0
  let nxt := futs.get? 1
  let far := futs.get? 2
  let near_s := match near with | some f => get_state c f.instrument_key | none => emptyQuote
  let nxt_s := match nxt with | some f => get_state c f.instrument_key | none => emptyQuote
  let far_s := match far with | some f => get_state c f.instrument_key | none => emptyQuote
  let spreads := compute_spreads near_s nxt_s far_s
  let mrow := findMarginRow margin_df sym
  let margin := mrow.map MarginRow.Margin
  let charges := mrow.map MarginRow.Charges
  let carry := mrow.map MarginRow.Cost_of_Carry
  let lot_size := mrow.map MarginRow.Lot_Size
  { Symbol := sym
    Lot_Size := lot_size
    Margin := roundTo 2 (pyOrQ margin 0)
    Charges := roundTo 2 (pyOrQ charges 0 / (pyOrZ lot_size 1 : ℚ))
    Cost_of_Carry := roundTo 2 (pyOrQ carry 0 / (pyOrZ lot_size 1 : ℚ))
    Near_ltp := near_s.ltp
    Next_ltp := nxt_s.ltp
    Far_ltp := far_s.ltp
    spreads := spreads }

/-! ### Rounding lemmas -/

lemma rne_neg (x : ℚ) : rne (-x) = - rne x := by
  have h0 : (0:ℚ) ≤ x - (⌊x⌋ : ℚ) := by
    have := Int.floor_le x; linarith
  have h1 : x - (⌊x⌋ : ℚ) < 1 := by
    have := Int.lt_floor_add_one x; linarith
  by_cases hint : x - (⌊x⌋ : ℚ) = 0
  · have hneg : ⌊-x⌋ = -⌊x⌋ := by
      have hfl : ((⌊x⌋ : ℤ) : ℚ) = x := by linarith
      conv_lhs => rw [← hfl]
      rw [← Int.cast_neg, Int.floor_intCast]
    have e2 : -x - ((⌊-x⌋ : ℤ) : ℚ) = 0 := by
      rw [hneg]; push_cast; linarith
    unfold rne
    rw [e2, hint, hneg]
    norm_num
  · have hpos : 0 < x - (⌊x⌋ : ℚ) := lt_of_le_of_ne h0 (Ne.symm hint)
    have hneg : ⌊-x⌋ = -⌊x⌋ - 1 := by
      rw [Int.floor_eq_iff]
      constructor
      · push_cast; linarith
      · push_cast; linarith
    have harg : -x - ((⌊-x⌋ : ℤ) : ℚ) = 1 - (x - (⌊x⌋ : ℚ)) := by
      rw [hneg]; push_cast; ring
    unfold rne
    rw [harg, hneg]
    split_ifs <;> first | omega | (exfalso; linarith)

lemma roundTo_neg (n : ℕ) (x : ℚ) : roundTo n (-x) = - roundTo n x := by
  unfold roundTo
  rw [show -x * 10 ^ n = -(x * 10 ^ n) by ring, rne_neg]
  push_cast
  ring

lemma roundTo_zero (n : ℕ) : roundTo n 0 = 0 := by
  unfold roundTo rne
  norm_num

/-! ### diff lemmas -/

lemma diff_eq_none_of (a b : Option ℚ) (h : a = none ∨ b = none) : diff a b = none := by
  rcases h with rfl | rfl
  · cases b <;> rfl
  · cases a <;> rfl

lemma diff_map_neg (a b : Option ℚ) : (diff a b).map (fun v => -v) = diff b a := by
  cases a with
  | none => cases b <;> rfl
  | some x =>
    cases b with
    | none => rfl
    | some y =>
      simp [diff]
      rw [show y - x = -(x - y) by ring, roundTo_neg]

/-! ### C1 -/

/-- C1: `diff(a, b)` is `None` whenever either operand is, and consequently
each of the six directional spreads of `compute_spreads` is `None` whenever
its counterparty bid or its self ask is `None`; a missing operand is never
defaulted to zero. -/
theorem C1_null_spread_propagation :
    (∀ a b : Option ℚ, a = none ∨ b = none → diff a b = none)
    ∧ (∀ near nxt far : Quote,
        ((nxt.bidP = none ∨ near.askP = none) →
          (compute_spreads near nxt far).Spread_NearBuy_NextSell = none)
        ∧ ((near.bidP = none ∨ nxt.askP = none) →
          (compute_spreads near nxt far).Spread_NearSell_NextBuy = none)
        ∧ ((far.bidP = none ∨ nxt.askP = none) →
          (compute_spreads near nxt far).Spread_NextBuy_FarSell = none)
        ∧ ((nxt.bidP = none ∨ far.askP = none) →
          (compute_spreads near nxt far).Spread_NextSell_FarBuy = none)
        ∧ ((far.bidP = none ∨ near.askP = none) →
          (compute_spreads near nxt far).Spread_NearBuy_FarSell = none)
        ∧ ((near.bidP = none ∨ far.askP = none) →
          (compute_spreads near nxt far).Spread_NearSell_FarBuy = none)) := by
  refine ⟨diff_eq_none_of, fun near nxt far => ?_⟩
  refine ⟨fun h => ?_, fun h => ?_, fun h => ?_, fun h => ?_, fun h => ?_, fun h => ?_⟩ <;>
    exact diff_eq_none_of _ _ h

/-- C1 witness: evaluated at `None` operands and at all-null quotes. -/
theorem C1_witness :
    diff none (some 0) = none
    ∧ (compute_spreads emptyQuote emptyQuote emptyQuote).Spread_NearBuy_NextSell = none
    ∧ (compute_spreads emptyQuote emptyQuote emptyQuote).Spread_NearSell_NextBuy = none
    ∧ (compute_spreads emptyQuote emptyQuote emptyQuote).Spread_NextBuy_FarSell = none
    ∧ (compute_spreads emptyQuote emptyQuote emptyQuote).Spread_NextSell_FarBuy = none
    ∧ (compute_spreads emptyQuote emptyQuote emptyQuote).Spread_NearBuy_FarSell = none
    ∧ (compute_spreads emptyQuote emptyQuote emptyQuote).Spread_NearSell_FarBuy = none := by
  obtain ⟨h1, h2⟩ := C1_null_spread_propagation
  obtain ⟨a, b, c, d, e, f⟩ := h2 emptyQuote emptyQuote emptyQuote
  exact ⟨h1 none (some 0) (Or.inl rfl), a (Or.inl rfl), b (Or.inl rfl), c (Or.inl rfl),
    d (Or.inl rfl), e (Or.inl rfl), f (Or.inl rfl)⟩

/-! ### pct lemmas -/

lemma pct_eq_map (l : ℚ) (o : Option ℚ) :
    pct l o = o.map (fun d => roundTo 2 (100 * d / l)) := by
  cases o with
  | none => rfl
  | some v =>
    simp only [pct, Option.map_some']
    congr 1
    ring_nf

lemma pct_none_iff (l : ℚ) (o : Option ℚ) : pct l o = none ↔ o = none := by
  cases o <;> simp [pct]

/-! ### C2 -/

/-- C2 (amended): in `compute_spreads` of f2fspread_main2.py every percentage
spread equals 100 times the absolute spread divided by the near last price and
then rounded to two decimal places, the divisor being replaced by 1 when the
near last price is null or zero; the percentage spread is null exactly when
the absolute spread is null. -/
theorem C2_pct_spreads :
    ∀ (near nxt far : Quote) (b a : Option ℚ) (x : ℚ),
    ((compute_spreads near nxt far).Spread_NearBuy_NextSell_pct
      = ((compute_spreads near nxt far).Spread_NearBuy_NextSell).map
          (fun d => roundTo 2 (100 * d / near_ltp_guard near))
    ∧ (compute_spreads near nxt far).Spread_NearSell_NextBuy_pct
      = ((compute_spreads near nxt far).Spread_NearSell_NextBuy).map
          (fun d => roundTo 2 (100 * d / near_ltp_guard near))
    ∧ (compute_spreads near nxt far).Spread_NextBuy_FarSell_pct
      = ((compute_spreads near nxt far).Spread_NextBuy_FarSell).map
          (fun d => roundTo 2 (100 * d / near_ltp_guard near))
    ∧ (compute_spreads near nxt far).Spread_NextSell_FarBuy_pct
      = ((compute_spreads near nxt far).Spread_NextSell_FarBuy).map
          (fun d => roundTo 2 (100 * d / near_ltp_guard near))
    ∧ (compute_spreads near nxt far).Spread_NearBuy_FarSell_pct
      = ((compute_spreads near nxt far).Spread_NearBuy_FarSell).map
          (fun d => roundTo 2 (100 * d / near_ltp_guard near))
    ∧ (compute_spreads near nxt far).Spread_NearSell_FarBuy_pct
      = ((compute_spreads near nxt far).Spread_NearSell_FarBuy).map
          (fun d => roundTo 2 (100 * d / near_ltp_guard near)))
    ∧ (((compute_spreads near nxt far).Spread_NearBuy_NextSell_pct = none
        ↔ (compute_spreads near nxt far).Spread_NearBuy_NextSell = none)
    ∧ ((compute_spreads near nxt far).Spread_NearSell_NextBuy_pct = none
        ↔ (compute_spreads near nxt far).Spread_NearSell_NextBuy = none)
    ∧ ((compute_spreads near nxt far).Spread_NextBuy_FarSell_pct = none
        ↔ (compute_spreads near nxt far).Spread_NextBuy_FarSell = none)
    ∧ ((compute_spreads near nxt far).Spread_NextSell_FarBuy_pct = none
        ↔ (compute_spreads near nxt far).Spread_NextSell_FarBuy = none)
    ∧ ((compute_spreads near nxt far).Spread_NearBuy_FarSell_pct = none
        ↔ (compute_spreads near nxt far).Spread_NearBuy_FarSell = none)
    ∧ ((compute_spreads near nxt far).Spread_NearSell_FarBuy_pct = none
        ↔ (compute_spreads near nxt far).Spread_NearSell_FarBuy = none))
    ∧ near_ltp_guard ⟨b, a, none⟩ = 1
    ∧ near_ltp_guard ⟨b, a, some x⟩ = (if x = 0 then 1 else x) := by
  intro near nxt far b a x
  exact ⟨⟨pct_eq_map _ _, pct_eq_map _ _, pct_eq_map _ _, pct_eq_map _ _,
      pct_eq_map _ _, pct_eq_map _ _⟩,
    ⟨pct_none_iff _ _, pct_none_iff _ _, pct_none_iff _ _, pct_none_iff _ _,
      pct_none_iff _ _, pct_none_iff _ _⟩,
    rfl, rfl⟩

/-- C2 counterexample: the percentage spread does not equal
`100 × absolute spread ÷ near last price` exactly — the code rounds it to two
decimals (first conjunct block, main2 variant) — and in the f2fspread.py
variant three of the six `_pct` entries are computed from the other
direction's operands, so they differ from any rounding of
`100 × absolute spread ÷ near last price` (second conjunct block). -/
theorem C2_counterexample :
    ((compute_spreads ⟨none, some 1, some 3⟩ ⟨some (1001/1000), none, none⟩
        emptyQuote).Spread_NearBuy_NextSell = some (1/1000)
    ∧ (compute_spreads ⟨none, some 1, some 3⟩ ⟨some (1001/1000), none, none⟩
        emptyQuote).Spread_NearBuy_NextSell_pct = some (3/100)
    ∧ (3/100 : ℚ) ≠ 100 * (1/1000) / 3)
    ∧ ((compute_spreads_v1 ⟨some 5, some 1, some 1⟩ ⟨some 2, some 3, none⟩
        emptyQuote).Spread_NearSell_NextBuy = some 2
    ∧ (compute_spreads_v1 ⟨some 5, some 1, some 1⟩ ⟨some 2, some 3, none⟩
        emptyQuote).Spread_NearSell_NextBuy_pct = some 100
    ∧ (100 : ℚ) ≠ 100 * 2 / 1
    ∧ (100 : ℚ) ≠ roundTo 2 (100 * 2 / 1)) := by
  refine ⟨⟨?_, ?_, ?_⟩, ⟨?_, ?_, ?_, ?_⟩⟩ <;>
    (norm_num [compute_spreads, compute_spreads_v1, diff, pct, pct_v1,
      near_ltp_guard, emptyQuote, roundTo, rne] <;>
     norm_num [Int.fract])

/-! ### C3 -/

/-- C3 (amended): the sign symmetry holds at the level of the `diff` operator
— `diff(a, b)` is the negation of `diff(b, a)` whenever both are present —
and `Spread(buyA/sellB) = −Spread(buyB/sellA)` holds for the computed spreads
when each leg's bid equals its ask; with distinct bid and ask the two
directional spreads differ by the two bid-ask gaps, not only in sign. -/
theorem C3_sign_symmetry :
    (∀ a b : Option ℚ, (diff a b).map (fun v => -v) = diff b a)
    ∧ (∀ near nxt far : Quote,
        near.bidP = near.askP → nxt.bidP = nxt.askP → far.bidP = far.askP →
        (compute_spreads near nxt far).Spread_NearBuy_NextSell
          = ((compute_spreads near nxt far).Spread_NearSell_NextBuy).map (fun v => -v)
        ∧ (compute_spreads near nxt far).Spread_NextBuy_FarSell
          = ((compute_spreads near nxt far).Spread_NextSell_FarBuy).map (fun v => -v)
        ∧ (compute_spreads near nxt far).Spread_NearBuy_FarSell
          = ((compute_spreads near nxt far).Spread_NearSell_FarBuy).map (fun v => -v)) := by
  refine ⟨diff_map_neg, fun near nxt far h1 h2 h3 => ⟨?_, ?_, ?_⟩⟩
  · show diff nxt.bidP near.askP = (diff near.bidP nxt.askP).map (fun v => -v)
    rw [diff_map_neg, h2, h1]
  · show diff far.bidP nxt.askP = (diff nxt.bidP far.askP).map (fun v => -v)
    rw [diff_map_neg, h3, h2]
  · show diff far.bidP near.askP = (diff near.bidP far.askP).map (fun v => -v)
    rw [diff_map_neg, h3, h1]

/-- C3 witness: quotes whose bid equals their ask. -/
theorem C3_sign_symmetry_witness :
    (compute_spreads ⟨some 10, some 10, some 1⟩ ⟨some 12, some 12, none⟩
        ⟨some 15, some 15, none⟩).Spread_NearBuy_NextSell
      = ((compute_spreads ⟨some 10, some 10, some 1⟩ ⟨some 12, some 12, none⟩
        ⟨some 15, some 15, none⟩).Spread_NearSell_NextBuy).map (fun v => -v) :=
  (C3_sign_symmetry.2 ⟨some 10, some 10, some 1⟩ ⟨some 12, some 12, none⟩
    ⟨some 15, some 15, none⟩ rfl rfl rfl).1

/-- C3 counterexample: with bid 10 and ask 11 on both legs, both directional
near/next spreads are present and equal −1, so neither is the negation of the
other. -/
theorem C3_counterexample :
    (compute_spreads ⟨some 10, some 11, some 100⟩ ⟨some 10, some 11, some 100⟩
        ⟨some 10, some 11, some 100⟩).Spread_NearBuy_NextSell = some (-1)
    ∧ (compute_spreads ⟨some 10, some 11, some 100⟩ ⟨some 10, some 11, some 100⟩
        ⟨some 10, some 11, some 100⟩).Spread_NearSell_NextBuy = some (-1)
    ∧ ¬ ((compute_spreads ⟨some 10, some 11, some 100⟩ ⟨some 10, some 11, some 100⟩
        ⟨some 10, some 11, some 100⟩).Spread_NearBuy_NextSell
      = ((compute_spreads ⟨some 10, some 11, some 100⟩ ⟨some 10, some 11, some 100⟩
        ⟨some 10, some 11, some 100⟩).Spread_NearSell_NextBuy).map (fun v => -v)) := by
  refine ⟨?_, ?_, ?_⟩ <;>
    norm_num [compute_spreads, diff, near_ltp_guard, roundTo, rne]

/-! ### C5 -/

/-- C5: for every cache state and instrument id, after writing
`(bid, ask, ltp) = (10, 11, 10.5)` for that id, `get_state` returns exactly
that record. -/
theorem C5_cache_roundtrip : ∀ (c : Cache) (ik : String),
    get_state (writeQuote c ik (some 10) (some 11) (some (10.5 : ℚ))) ik
      = ⟨some 10, some 11, some (10.5 : ℚ)⟩ := by
  intro c ik
  simp [get_state, writeQuote, cacheSet, cacheLookup]

/-! ### C9 -/

/-- C9: `fetch_futures_stocks` returns the same list for any two values of its
`skip_symbols` argument; the parameter is accepted but never applied. -/
theorem C9_skip_symbols_unused :
    ∀ (file : InstrumentsFile) (segment instrument_type : String) (expiry : ℤ)
      (s1 s2 : List String),
    fetch_futures_stocks file segment instrument_type expiry s1
      = fetch_futures_stocks file segment instrument_type expiry s2 :=
  fun _ _ _ _ _ _ => rfl

/-! ### Cache lemmas -/

lemma cacheLookup_eq_none : ∀ (c : Cache) (ik : String),
    (∀ q : Quote, (ik, q) ∉ c) → cacheLookup c ik = none := by
  intro c ik
  induction c with
  | nil => intro _; rfl
  | cons hd tl ih =>
    intro h
    obtain ⟨k, v⟩ := hd
    by_cases hk : k = ik
    · subst hk
      exact absurd (List.mem_cons_self _ _) (h v)
    · simp only [cacheLookup, if_neg hk]
      exact ih (fun q hq => h q (List.mem_cons_of_mem _ hq))

/-! ### C4 -/

/-- C4 (amended): the unconditional write used by f2fspread_main2.py's REST
poller and websocket callback overwrites the prior entry for the instrument
for every prior cache and every triple, and a live-feed message stores the
parsed payload; but the f2fspread.py REST poller's write is conditional — an
all-null triple leaves the cache unchanged, and it overwrites only when at
least one of bid/ask/ltp is non-null. -/
theorem C4_overwrite :
    (∀ (c : Cache) (ik : String) (bid ask ltp : Option ℚ),
      get_state (writeQuote c ik bid ask ltp) ik = ⟨bid, ask, ltp⟩)
    ∧ (∀ (c : Cache) (ik : String) (p : FeedPayload),
      get_state (on_message ⟨"live_feed", [(ik, p)]⟩ c) ik = parseFeedEntry p)
    ∧ (∀ (c : Cache) (ik : String), rest_poll_write_v1 c ik none none none = c)
    ∧ (∀ (c : Cache) (ik : String) (bid ask ltp : Option ℚ),
      bid ≠ none ∨ ask ≠ none ∨ ltp ≠ none →
      get_state (rest_poll_write_v1 c ik bid ask ltp) ik = ⟨bid, ask, ltp⟩) := by
  have hw : ∀ (c : Cache) (ik : String) (bid ask ltp : Option ℚ),
      get_state (writeQuote c ik bid ask ltp) ik = ⟨bid, ask, ltp⟩ := by
    intro c ik b a l
    simp [get_state, writeQuote, cacheSet, cacheLookup]
  refine ⟨hw, ?_, ?_, ?_⟩
  · intro c ik p
    simp [on_message, get_state, cacheSet, cacheLookup]
  · intro c ik
    simp [rest_poll_write_v1]
  · intro c ik b a l h
    unfold rest_poll_write_v1
    rw [if_pos h]
    exact hw c ik b a l

/-- C4 witness: the conditional REST write applied with a non-null bid. -/
theorem C4_overwrite_witness :
    get_state (rest_poll_write_v1 [] "k" (some 1) none none) "k"
      = ⟨some 1, none, none⟩ :=
  C4_overwrite.2.2.2 [] "k" (some 1) none none (Or.inl (by simp))

/-- C4 counterexample: writing the all-null triple through f2fspread.py's REST
poller leaves the prior entry in place instead of overwriting it. -/
theorem C4_counterexample :
    get_state (rest_poll_write_v1 [("k", ⟨some 1, some 2, some 3⟩)] "k"
        none none none) "k" = ⟨some 1, some 2, some 3⟩
    ∧ get_state (rest_poll_write_v1 [("k", ⟨some 1, some 2, some 3⟩)] "k"
        none none none) "k" ≠ (⟨none, none, none⟩ : Quote) := by
  constructor <;> simp [rest_poll_write_v1, get_state, cacheLookup]

/-! ### C6 -/

/-- C6: for an instrument id never written to the cache, `get_state` of
f2fspread_main2.py returns the record with null bid, ask and last price, and
`get_state` of f2fspread.py returns the caller's trading symbol with null bid,
ask and last price; neither fails nor returns zeros. -/
theorem C6_unknown_id :
    ∀ (c : Cache) (ik tsym : String), (∀ q : Quote, (ik, q) ∉ c) →
    get_state c ik = ⟨none, none, none⟩
    ∧ get_state_v1 c ik tsym = ⟨tsym, none, none, none⟩ := by
  intro c ik tsym h
  have hl : cacheLookup c ik = none := cacheLookup_eq_none c ik h
  constructor
  · simp [get_state, hl, emptyQuote]
  · simp [get_state_v1, hl]

/-- C6 witness: the empty cache. -/
theorem C6_unknown_id_witness :
    get_state [] "UNSEEN" = ⟨none, none, none⟩
    ∧ get_state_v1 [] "UNSEEN" "RELIANCE" = ⟨"RELIANCE", none, none, none⟩ :=
  C6_unknown_id [] "UNSEEN" "RELIANCE" (fun _ hq => absurd hq (List.not_mem_nil _))

/-! ### C10 -/

/-- C10: in `build_df`'s row, a symbol with no margin-table row renders with
`Margin`, `Charges` and `Cost_of_Carry` equal to `0` (missing values replaced
by 0, per-lot divisors by 1) and `Lot_Size` null; by contrast a quote-derived
field such as `Near_ltp` stays null when the cache has no data. -/
theorem C10_margin_defaults :
    (∀ (sym : String) (instruments : List Instrument) (c : Cache)
       (margin_df : List MarginRow),
      (∀ r ∈ margin_df, r.Symbol ≠ sym) →
      (build_row sym instruments c margin_df).Margin = 0
      ∧ (build_row sym instruments c margin_df).Charges = 0
      ∧ (build_row sym instruments c margin_df).Cost_of_Carry = 0
      ∧ (build_row sym instruments c margin_df).Lot_Size = none)
    ∧ (∀ (sym : String) (instruments : List Instrument)
       (margin_df : List MarginRow),
      (build_row sym instruments [] margin_df).Near_ltp = none) := by
  constructor
  · intro sym instruments c margin_df h
    have hfind : findMarginRow margin_df sym = none := by
      rw [findMarginRow, List.find?_eq_none]
      intro r hr
      simpa using h r hr
    refine ⟨?_, ?_, ?_, ?_⟩ <;>
      simp [build_row, hfind, pyOrQ, pyOrZ, roundTo_zero]
  · intro sym instruments margin_df
    simp only [build_row]
    split <;> simp [get_state, cacheLookup, emptyQuote]

/-- C10 witness: a symbol absent from an empty margin table. -/
theorem C10_margin_defaults_witness :
    (build_row "X" [] [] []).Margin = 0
    ∧ (build_row "X" [] [] []).Charges = 0
    ∧ (build_row "X" [] [] []).Cost_of_Carry = 0
    ∧ (build_row "X" [] [] []).Lot_Size = none :=
  C10_margin_defaults.1 "X" [] [] [] (fun _ hr => absurd hr (List.not_mem_nil _))

/-! ### dedupFirst lemmas -/

lemma mem_dedupFirstAux {α : Type} [DecidableEq α] :
    ∀ (l seen : List α) (x : α), x ∈ dedupFirstAux seen l ↔ x ∈ l ∧ x ∉ seen := by
  intro l
  induction l with
  | nil => intro seen x; simp [dedupFirstAux]
  | cons y ys ih =>
    intro seen x
    by_cases hy : y ∈ seen
    · simp only [dedupFirstAux, if_pos hy]
      rw [ih seen x]
      constructor
      · rintro ⟨hmem, hns⟩
        exact ⟨List.mem_cons_of_mem _ hmem, hns⟩
      · rintro ⟨hmem, hns⟩
        rcases List.mem_cons.mp hmem with rfl | hmem
        · exact absurd hy hns
        · exact ⟨hmem, hns⟩
    · simp only [dedupFirstAux, if_neg hy]
      rw [List.mem_cons, ih (y :: seen) x]
      constructor
      · rintro (rfl | ⟨hmem, hns⟩)
        · exact ⟨List.mem_cons_self _ _, hy⟩
        · exact ⟨List.mem_cons_of_mem _ hmem, fun hs => hns (List.mem_cons_of_mem _ hs)⟩
      · rintro ⟨hmem, hns⟩
        rcases List.mem_cons.mp hmem with rfl | hmem
        · exact Or.inl rfl
        · by_cases hxy : x = y
          · exact Or.inl hxy
          · refine Or.inr ⟨hmem, fun hs => ?_⟩
            rcases List.mem_cons.mp hs with h | h
            · exact hxy h
            · exact hns h

lemma nodup_dedupFirstAux {α : Type} [DecidableEq α] :
    ∀ (l seen : List α), (dedupFirstAux seen l).Nodup := by
  intro l
  induction l with
  | nil => intro seen; simp [dedupFirstAux]
  | cons y ys ih =>
    intro seen
    by_cases hy : y ∈ seen
    · simp only [dedupFirstAux, if_pos hy]
      exact ih seen
    · simp only [dedupFirstAux, if_neg hy]
      rw [List.nodup_cons]
      refine ⟨fun hmem => ?_, ih (y :: seen)⟩
      exact ((mem_dedupFirstAux ys (y :: seen) y).mp hmem).2 (List.mem_cons_self _ _)

lemma pairwise_firstIdx_dedupFirstAux {α : Type} [DecidableEq α] :
    ∀ (l seen : List α),
    List.Pairwise (fun a b => firstIdx a l < firstIdx b l) (dedupFirstAux seen l) := by
  intro l
  induction l with
  | nil => intro seen; simp [dedupFirstAux]
  | cons y ys ih =>
    intro seen
    by_cases hy : y ∈ seen
    · simp only [dedupFirstAux, if_pos hy]
      refine (ih seen).imp_of_mem ?_
      intro a b ha hb hab
      have ha' := (mem_dedupFirstAux ys seen a).mp ha
      have hb' := (mem_dedupFirstAux ys seen b).mp hb
      have hay : ¬ (y = a) := fun h => ha'.2 (h ▸ hy)
      have hby : ¬ (y = b) := fun h => hb'.2 (h ▸ hy)
      simp only [firstIdx, if_neg hay, if_neg hby]
      omega
    · simp only [dedupFirstAux, if_neg hy]
      rw [List.pairwise_cons]
      constructor
      · intro b hb
        have hb' := (mem_dedupFirstAux ys (y :: seen) b).mp hb
        have hby : ¬ (y = b) := fun h => hb'.2 (h ▸ List.mem_cons_self y seen)
        simp only [firstIdx, if_neg hby]
        simp
      · refine (ih (y :: seen)).imp_of_mem ?_
        intro a b ha hb hab
        have ha' := (mem_dedupFirstAux ys (y :: seen) a).mp ha
        have hb' := (mem_dedupFirstAux ys (y :: seen) b).mp hb
        have hay : ¬ (y = a) := fun h => ha'.2 (h ▸ List.mem_cons_self y seen)
        have hby : ¬ (y = b) := fun h => hb'.2 (h ▸ List.mem_cons_self y seen)
        simp only [firstIdx, if_neg hay, if_neg hby]
        omega

/-! ### C7 -/

/-- C7: the loaded symbol list and the subscribe-key list are duplicate-free,
contain exactly the values of their raw source lists, and list them strictly
in order of first appearance in the source (each pair of output positions is
ordered by first-occurrence index). -/
theorem C7_dedup_order_stable :
    ∀ (column : List (Option String)) (underlyings : List String)
      (instruments : List Instrument),
    ((load_underlyings column).Nodup
      ∧ (∀ s, s ∈ load_underlyings column ↔ s ∈ column.filterMap id)
      ∧ List.Pairwise
          (fun a b => firstIdx a (column.filterMap id) < firstIdx b (column.filterMap id))
          (load_underlyings column))
    ∧ ((subscribe_keys underlyings instruments).Nodup
      ∧ (∀ k, k ∈ subscribe_keys underlyings instruments
          ↔ k ∈ underlyings.flatMap
              (fun s => (get_instrument_keys_for_symbol s instruments).map Fut.instrument_key))
      ∧ List.Pairwise
          (fun a b =>
            firstIdx a (underlyings.flatMap
              (fun s => (get_instrument_keys_for_symbol s instruments).map Fut.instrument_key))
            < firstIdx b (underlyings.flatMap
              (fun s => (get_instrument_keys_for_symbol s instruments).map Fut.instrument_key)))
          (subscribe_keys underlyings instruments)) := by
  intro column underlyings instruments
  refine ⟨⟨nodup_dedupFirstAux _ _, fun s => ?_, pairwise_firstIdx_dedupFirstAux _ _⟩,
    ⟨nodup_dedupFirstAux _ _, fun k => ?_, pairwise_firstIdx_dedupFirstAux _ _⟩⟩
  · rw [show load_underlyings column = dedupFirstAux [] (column.filterMap id) from rfl,
      mem_dedupFirstAux]
    simp
  · rw [show subscribe_keys underlyings instruments
        = dedupFirstAux [] (underlyings.flatMap
            (fun s => (get_instrument_keys_for_symbol s instruments).map Fut.instrument_key))
      from rfl, mem_dedupFirstAux]
    simp

/-! ### C8 -/

/-- C8: `get_instrument_keys_for_symbol` returns at most three entries; every
entry comes from an NSE_FO future of the given underlying; the entries are in
non-decreasing expiry order; and together with some remainder list they are a
permutation of all matching futures, every remainder expiry being at least
every returned expiry — i.e. the returned contracts are the three
nearest-expiry ones. -/
theorem C8_near_next_far :
    ∀ (symbol : String) (instruments : List Instrument),
    (get_instrument_keys_for_symbol symbol instruments).length ≤ 3
    ∧ (∀ f ∈ get_instrument_keys_for_symbol symbol instruments,
        ∃ i ∈ instruments, i.segment = some "NSE_FO" ∧ i.instrument_type = some "FUT"
          ∧ i.underlying_symbol = some symbol ∧ f = futOf i)
    ∧ List.Pairwise (fun a b : Fut => a.expiry ≤ b.expiry)
        (get_instrument_keys_for_symbol symbol instruments)
    ∧ ∃ rest : List Fut,
        (get_instrument_keys_for_symbol symbol instruments ++ rest).Perm
          ((instruments.filter (matchesFut symbol)).map futOf)
        ∧ ∀ f ∈ get_instrument_keys_for_symbol symbol instruments,
            ∀ g ∈ rest, f.expiry ≤ g.expiry := by
  intro symbol instruments
  set sorted := ((instruments.filter (matchesFut symbol)).map futOf).mergeSort expiryLe
    with hsorted
  have htrans : ∀ (a b c : Fut),
      expiryLe a b = true → expiryLe b c = true → expiryLe a c = true := by
    intro a b c hab hbc
    simp only [expiryLe, decide_eq_true_eq] at hab hbc ⊢
    omega
  have htotal : ∀ (a b : Fut), (expiryLe a b || expiryLe b a) = true := by
    intro a b
    simp only [expiryLe, Bool.or_eq_true, decide_eq_true_eq]
    omega
  have hpair : List.Pairwise (fun a b => expiryLe a b = true) sorted :=
    List.sorted_mergeSort htrans htotal _
  have hperm : sorted.Perm ((instruments.filter (matchesFut symbol)).map futOf) :=
    List.mergeSort_perm _ _
  have hdef : get_instrument_keys_for_symbol symbol instruments = sorted.take 3 := rfl
  refine ⟨?_, ?_, ?_, ?_⟩
  · rw [hdef]
    exact List.length_take_le 3 sorted
  · intro f hf
    rw [hdef] at hf
    have hf2 : f ∈ (instruments.filter (matchesFut symbol)).map futOf :=
      hperm.mem_iff.mp (List.mem_of_mem_take hf)
    rcases List.mem_map.mp hf2 with ⟨i, hi, hfi⟩
    rcases List.mem_filter.mp hi with ⟨hmem, hmatch⟩
    have hm := of_decide_eq_true hmatch
    exact ⟨i, hmem, hm.1, hm.2.1, hm.2.2, hfi.symm⟩
  · rw [hdef]
    exact (List.Pairwise.sublist (List.take_sublist 3 sorted) hpair).imp
      (fun hab => of_decide_eq_true hab)
  · refine ⟨sorted.drop 3, ?_, ?_⟩
    · rw [hdef, List.take_append_drop]
      exact hperm
    · intro f hf g hg
      rw [hdef] at hf
      have hp : List.Pairwise (fun a b => expiryLe a b = true)
          (sorted.take 3 ++ sorted.drop 3) := by
        rw [List.take_append_drop]
        exact hpair
      exact of_decide_eq_true ((List.pairwise_append.mp hp).2.2 f hf g hg)

/-- C8 witness: one matching future yields exactly its own near contract. -/
theorem C8_near_next_far_witness :
    (get_instrument_keys_for_symbol "X"
      [⟨some "NSE_FO", some "FUT", some "X", some "K1", some 5, some "T1"⟩]).length ≤ 3
    ∧ ∃ i ∈ [(⟨some "NSE_FO", some "FUT", some "X", some "K1", some 5,
          some "T1"⟩ : Instrument)],
        i.segment = some "NSE_FO" ∧ i.instrument_type = some "FUT"
        ∧ i.underlying_symbol = some "X"
        ∧ (⟨"K1", 5, some "T1"⟩ : Fut) = futOf i := by
  have h := C8_near_next_far "X"
    [⟨some "NSE_FO", some "FUT", some "X", some "K1", some 5, some "T1"⟩]
  refine ⟨h.1, h.2.1 ⟨"K1", 5, some "T1"⟩ ?_⟩
  simp [get_instrument_keys_for_symbol, matchesFut, futOf, pyStr]

end F2F
